import Mathlib

/-!
Verification of the Unreal Engine 1 mesh exporter (`io_mesh_unreal1/__init__.py`)
against its natural-language specification.

The Python source is shallowly embedded: Python floats are modelled as
rationals (`ℚ`), Python's arbitrary-precision integers as `ℤ`/`ℕ`,
`struct.pack` calls as byte-list producers that can fail (`Option`), and the
operator's `execute` method as a pure function from the mesh snapshots and
the export configuration to the list of (possibly partially) written files.
-/

attribute [local semireducible] Rat.mul Rat.add Rat.sub Rat.inv Rat.ofScientific

namespace Unreal1

/-- Python `int(f)` applied to a float: truncation toward zero.
Modelled on rationals: floor for non-negative arguments, `-⌊-q⌋` (that is,
the ceiling) otherwise. -/
def truncQ (q : ℚ) : ℤ := if 0 ≤ q then q.floor else -(Rat.floor (-q))

/-- Python `n & mask` where `mask = 2^w - 1`: for arbitrary-precision signed
integers this is the (always non-negative) remainder of `n` modulo `2^w`. -/
def maskBits (t : ℤ) (w : ℕ) : ℕ := (t % (2 ^ w : ℤ)).toNat

/-- A vertex coordinate triple (`v.co`); Python floats modelled as rationals. -/
structure Vec3 where
  x : ℚ
  y : ℚ
  z : ℚ
deriving DecidableEq

/-- `enc_vert_unreal(coord)`: Engine ("UNREAL1") vertex packing.
`int(coord[0]*8.0) & 0x7ff | (int(coord[1]*8.0) & 0x7ff) << 11
 | (int(coord[2]*4.0) & 0x3ff) << 22`. -/
def enc_vert_unreal (coord : Vec3) : ℕ :=
  maskBits (truncQ (coord.x * 8)) 11 |||
  (maskBits (truncQ (coord.y * 8)) 11) <<< 11 |||
  (maskBits (truncQ (coord.z * 4)) 10) <<< 22

/-- `enc_vert_deusex(coord)`: Extended ("DEUSEX") vertex packing.
`int(coord[0]*256.0) & 0xffff | (int(coord[1]*256.0) & 0xffff) << 16
 | (int(coord[2]*256.0) & 0xffff) << 32`. -/
def enc_vert_deusex (coord : Vec3) : ℕ :=
  maskBits (truncQ (coord.x * 256)) 16 |||
  (maskBits (truncQ (coord.y * 256)) 16) <<< 16 |||
  (maskBits (truncQ (coord.z * 256)) 16) <<< 32

/-! ### Byte-level serialization (`struct.pack`)

`struct.pack` format codes are modelled as functions producing little-endian
byte lists, failing (`none`, i.e. raising `struct.error`) when the value does
not fit the field.  Two of the exporter's format strings (`"4H7L12B"` for the
data-file header and the `calcsize` of the per-vertex code) use *native*
sizes: on the exporter's target platform (Windows, per its hardcoded
`C:\UnrealTournament`-style paths) the C `long` is 4 bytes and the byte order
is little-endian with no padding, which is what we model. -/

/-- `w` little-endian bytes of `n` (`n < 256^w` must hold for faithfulness). -/
def le_bytes (w n : ℕ) : List ℕ := (List.range w).map fun i => n / 256 ^ i % 256

/-- `struct.pack` code `H` (unsigned 16-bit, little-endian). -/
def pack_H (n : ℕ) : Option (List ℕ) :=
  if n < 2 ^ 16 then some (le_bytes 2 n) else none

/-- `struct.pack` code `h` (signed 16-bit, little-endian, two's complement). -/
def pack_h (n : ℤ) : Option (List ℕ) :=
  if -2 ^ 15 ≤ n ∧ n < 2 ^ 15 then some (le_bytes 2 (n % 2 ^ 16).toNat) else none

/-- `struct.pack` code `B` (unsigned byte). -/
def pack_B (n : ℕ) : Option (List ℕ) :=
  if n < 2 ^ 8 then some [n] else none

/-- `struct.pack` code `b` (signed byte, two's complement). -/
def pack_b (n : ℤ) : Option (List ℕ) :=
  if -2 ^ 7 ≤ n ∧ n < 2 ^ 7 then some [(n % 2 ^ 8).toNat] else none

/-- `struct.pack` code `=L` (unsigned 32-bit, standard size, little-endian). -/
def pack_eL (n : ℕ) : Option (List ℕ) :=
  if n < 2 ^ 32 then some (le_bytes 4 n) else none

/-- `struct.pack` code `=Q` (unsigned 64-bit, standard size, little-endian). -/
def pack_eQ (n : ℕ) : Option (List ℕ) :=
  if n < 2 ^ 64 then some (le_bytes 8 n) else none

/-- The export format selector (`p_export_format_type`):
`"UNREAL1"` (Engine) or `"DEUSEX"` (Extended). -/
inductive ExportFormat where
  | unreal1
  | deusex
deriving DecidableEq

/-- `calcsize(vert_data_type)` with `vert_data_type` `'L'` (Engine) or `'Q'`
(Extended) and no byte-order prefix: native sizes, so 4 resp. 8 bytes on the
target platform. -/
def calcsize_vert : ExportFormat → ℕ
  | .unreal1 => 4
  | .deusex => 8

/-- The width in bytes of one packed vertex as actually written with
`pack('=' + vert_data_type, ...)`: standard sizes, 4 resp. 8 bytes. -/
def std_vert_width : ExportFormat → ℕ
  | .unreal1 => 4
  | .deusex => 8

/-- `pack('=' + vert_data_type, n)`. -/
def pack_vert : ExportFormat → ℕ → Option (List ℕ)
  | .unreal1 => pack_eL
  | .deusex => pack_eQ

/-! ### Mesh data model

A `Face` carries its vertex indices (`[vert.index for vert in poly.verts]`),
its material slot index and one UV pair per loop.  A `Mesh` carries the
vertex coordinates, the faces, whether a UV channel exists
(`len(...loops.layers.uv) > 0`) and the object's material-slot names. -/

structure Face where
  verts : List ℕ
  material_index : ℤ
  loops : List (ℚ × ℚ)
deriving DecidableEq

structure Mesh where
  verts : List Vec3
  faces : List Face
  has_uv : Bool
  material_slots : List (List Char)
deriving DecidableEq

/-- The relevant fields of the operator's configuration properties. -/
structure Config where
  scale : ℚ
  flip_x : Bool
  flip_y : Bool
  flip_z : Bool
  flip_uv_u : Bool
  flip_uv_v : Bool
  fmt : ExportFormat
deriving DecidableEq

/-- One axis flip inside `get_bmesh_snapshot`: negate the coordinate of every
vertex and reverse the winding of every face (`bmesh.ops.reverse_faces`,
modelled as reversing each face's vertex/loop lists). -/
def flip_axis (neg : Vec3 → Vec3) (m : Mesh) : Mesh :=
  { m with
    verts := m.verts.map neg
    faces := m.faces.map fun f => ⟨f.verts.reverse, f.material_index, f.loops.reverse⟩ }

/-- `get_bmesh_snapshot(meshobj, flip_x, flip_y, flip_z)`: the evaluated,
already-triangulated snapshot with the configured axis mirrors applied
(triangulation itself is the external collaborator's concern and the input
`m` is the already-triangulated snapshot). -/
def get_bmesh_snapshot (m : Mesh) (fx fy fz : Bool) : Mesh :=
  let m1 := if fx then flip_axis (fun v => ⟨-v.x, v.y, v.z⟩) m else m
  let m2 := if fy then flip_axis (fun v => ⟨v.x, -v.y, v.z⟩) m1 else m1
  if fz then flip_axis (fun v => ⟨v.x, v.y, -v.z⟩) m2 else m2

/-! ### Range validator (`check_mesh`) -/

/-- The per-axis test of `check_mesh`: the vertex fails the axis when
`-maxv >= c or maxv <= c`.  Returns the first failing axis (0 = x, 1 = y,
2 = z) together with the offending component value, as printed by the
source. -/
def vert_fail_axis (maxv : ℚ) (v : Vec3) : Option (ℕ × ℚ) :=
  if -maxv ≥ v.x ∨ maxv ≤ v.x then some (0, v.x)
  else if -maxv ≥ v.y ∨ maxv ≤ v.y then some (1, v.y)
  else if -maxv ≥ v.z ∨ maxv ≤ v.z then some (2, v.z)
  else none

/-- The loop of `check_mesh`, reporting the first out-of-range vertex as
(vertex index, axis, offending component value). -/
def check_mesh_go (maxv : ℚ) : ℕ → List Vec3 → Option (ℕ × ℕ × ℚ)
  | _, [] => none
  | i, v :: rest =>
    match vert_fail_axis maxv v with
    | some (a, c) => some (i, a, c)
    | none => check_mesh_go maxv (i + 1) rest

/-- The information printed by `check_mesh` on failure. -/
def check_mesh_report (verts : List Vec3) (scale : ℚ) : Option (ℕ × ℕ × ℚ) :=
  check_mesh_go (128 / scale) 0 verts

/-- `check_mesh(mesh_obj, scale)`: `True` iff every vertex coordinate is
strictly inside `±(128 / scale)` on all three axes. -/
def check_mesh (verts : List Vec3) (scale : ℚ) : Bool :=
  (check_mesh_report verts scale).isNone

/-! ### Mesh-type lookup (`get_jmesh_type`) -/

/-- Python's substring test `needle in hay` on strings (as `List Char`). -/
def strContains : List Char → List Char → Bool
  | [], need => need.isEmpty
  | c :: t, need => need.isPrefixOf (c :: t) || strContains t need

/-- The chain of substring tests of `get_jmesh_type` applied to the
already-lowercased material name. -/
def jmesh_lookup (mat_name : List Char) : ℕ :=
  if strContains mat_name ("(skin)".toList) then 0
  else if strContains mat_name ("(twosidednorm)".toList) then 1
  else if strContains mat_name ("(translucent)".toList) then 2
  else if strContains mat_name ("(twosided)".toList) then 3
  else if strContains mat_name ("(weapon)".toList) then 8
  else if strContains mat_name ("(unlit)".toList) then 16
  else if strContains mat_name ("(flat)".toList) then 32
  else if strContains mat_name ("(envmapped)".toList) then 64
  else 0

/-- `get_jmesh_type(meshobj, mat_idx)`: the mesh-type byte derived from the
material name of the given slot (`material.name.lower()`), `0` for a
negative or out-of-range slot index, by the fixed chain of case-insensitive
substring tests. -/
def get_jmesh_type (slots : List (List Char)) (mat_idx : ℤ) : ℕ :=
  if 0 > mat_idx ∨ (slots.length : ℤ) ≤ mat_idx then 0
  else jmesh_lookup ((slots.getD mat_idx.toNat []).map Char.toLower)

/-- The marker table of the specification, in the source's test order. -/
def jmesh_table : List (List Char × ℕ) :=
  [("(skin)".toList, 0), ("(twosidednorm)".toList, 1),
   ("(translucent)".toList, 2), ("(twosided)".toList, 3),
   ("(weapon)".toList, 8), ("(unlit)".toList, 16),
   ("(flat)".toList, 32), ("(envmapped)".toList, 64)]

/-- The x, y, z component of a vertex, by axis number 0, 1, 2. -/
def vcomp (a : ℕ) (v : Vec3) : ℚ :=
  if a = 0 then v.x else if a = 1 then v.y else v.z

/-! ### Animation file (`_a.3d`) -/

/-- `[a * mesh_scale for a in v.co]`. -/
def scaleVec (s : ℚ) (v : Vec3) : Vec3 := ⟨v.x * s, v.y * s, v.z * s⟩

/-- The per-format vertex encoder selection in the frame loop. -/
def enc_vert : ExportFormat → Vec3 → ℕ
  | .unreal1, c => enc_vert_unreal c
  | .deusex, c => enc_vert_deusex c

/-- The bytes written for one frame: for every vertex of the frame's
snapshot, in order, the packed scaled coordinate. -/
def frame_bytes (cfg : Config) (framePre : Mesh) : Option (List ℕ) := do
  let chunks ← (get_bmesh_snapshot framePre cfg.flip_x cfg.flip_y cfg.flip_z).verts.mapM
    fun v => pack_vert cfg.fmt (enc_vert cfg.fmt (scaleVec cfg.scale v))
  pure chunks.flatten

/-- The whole animation file: number of frames (`=h`), frame size in bytes
(`=h`, computed from the *base* mesh's vertex count times the native
`calcsize` of the vertex code), then every frame's packed vertices. -/
def aniv_file_bytes (baseMesh : Mesh) (cfg : Config) (frames : List Mesh) :
    Option (List ℕ) := do
  let h1 ← pack_h (frames.length : ℤ)
  let h2 ← pack_h ((baseMesh.verts.length * calcsize_vert cfg.fmt : ℕ) : ℤ)
  let body ← frames.mapM (frame_bytes cfg)
  pure (h1 ++ h2 ++ body.flatten)

/-! ### Data file (`_d.3d`) -/

/-- The 48-byte data file header,
`pack("4H7L12B", len(faces), len(verts), *([0] * 21))`:
4 native (= little-endian 16-bit) `H` fields, 7 native `L` fields
(little-endian 32-bit on the target platform), 12 `B` bytes. -/
def data_header (faceCount vertCount : ℕ) : Option (List ℕ) := do
  let b1 ← pack_H faceCount
  let b2 ← pack_H vertCount
  pure (b1 ++ b2 ++ le_bytes 2 0 ++ le_bytes 2 0 ++
        (List.replicate 7 (le_bytes 4 0)).flatten ++ List.replicate 12 0)

/-- The two UV bytes for one loop.  With a UV channel present, `uv` is the
loop's (mutable) UV vector and the in-place pipeline wraps each component by
`% 1`, optionally flips it as `1 - c`, scales by 255 and truncates with
`int(...)`.  Without a UV channel the source's default `uv = (0, 0)` is an
immutable Python *tuple*, and the very next statement `uv[0] = uv[0] % 1`
raises `TypeError` — the no-UV-channel path crashes instead of encoding the
default; modelled as `none`. -/
def uv_bytes (fu fv has_uv : Bool) (luv : ℚ × ℚ) : Option (List ℕ) :=
  if has_uv then
    let u0 := luv.1 - Rat.floor luv.1
    let v0 := luv.2 - Rat.floor luv.2
    let u1 := if fu then 1 - u0 else u0
    let v1 := if fv then 1 - v0 else v0
    some [(truncQ (u1 * 255)).toNat, (truncQ (v1 * 255)).toNat]
  else none

/-- One 16-byte face record,
`pack("3H2b6B2b", *indices, face_type, 0, *uvs, material_index + 1, 0)`.
`none` models an uncaught exception before the record's bytes are written:
the `TypeError` of the UV loop (which the source runs first), or a
`struct.error` from the single `pack` call — a value out of field range or
a wrong argument count. -/
def face_record (slots : List (List Char)) (fu fv has_uv : Bool) (f : Face) :
    Option (List ℕ) := do
  let uvpairs ← f.loops.mapM (uv_bytes fu fv has_uv)
  let uvs := uvpairs.flatten
  let idxb ← f.verts.mapM pack_H
  let tb ← pack_b (get_jmesh_type slots f.material_index)
  let cb ← pack_b 0
  let uvb ← if uvs.length = 6 then uvs.mapM pack_B else none
  let mb ← pack_b (f.material_index + 1)
  let fb ← pack_b 0
  if f.verts.length = 3 then
    pure (idxb.flatten ++ tb ++ cb ++ uvb.flatten ++ mb ++ fb)
  else none

/-- Outcome of the face-writing loop: all records written, the loop aborted
at a non-triangle face (`ERROR: only triangles are allowed`), or an uncaught
exception was raised (the `TypeError` of the UV loop when no UV channel
exists, or a `struct.error` from `pack`).  In the two failure cases the
bytes already written for the preceding faces are kept — they are already
in the file. -/
inductive FaceLoopResult where
  | ok (bytes : List ℕ)
  | badFace (written : List ℕ)
  | packErr (written : List ℕ)
deriving DecidableEq

/-- The face loop of the data file writer. -/
def face_loop (slots : List (List Char)) (fu fv has_uv : Bool) :
    List Face → FaceLoopResult
  | [] => .ok []
  | f :: rest =>
    if f.verts.length ≠ 3 then .badFace []
    else
      match face_record slots fu fv has_uv f with
      | none => .packErr []
      | some r =>
        match face_loop slots fu fv has_uv rest with
        | .ok b => .ok (r ++ b)
        | .badFace w => .badFace (r ++ w)
        | .packErr w => .packErr (r ++ w)

/-! ### The operator (`UnrealMeshExport.execute`) -/

/-- The output artifacts the operator writes (the directory tree and the
log file's text content are abstracted; what matters for the claims is
which files exist and the binary files' bytes). -/
inductive FileOut where
  | logFile
  | anivFile (bytes : List ℕ)
  | dataFile (bytes : List ℕ)
  | classFile
deriving DecidableEq

/-- The `self.report({'ERROR'}, ...)` messages that lead to `CANCELLED`. -/
inductive CancelReason where
  | invalidFrameRange
  | outOfBounds
  | onlyTriangles
deriving DecidableEq

/-- Result of `execute`: `FINISHED`, `CANCELLED` (with the files written up
to that point — they are *not* removed), or an uncaught `struct.error`. -/
inductive ExecResult where
  | finished (files : List FileOut)
  | cancelled (reason : CancelReason) (files : List FileOut)
  | raised (files : List FileOut)
deriving DecidableEq

def ExecResult.files : ExecResult → List FileOut
  | .finished fs => fs
  | .cancelled _ fs => fs
  | .raised fs => fs

def ExecResult.isFinished : ExecResult → Bool
  | .finished _ => true
  | _ => false

def ExecResult.isTriangleAbort : ExecResult → Bool
  | .cancelled .onlyTriangles _ => true
  | _ => false

/-- The animation-file bytes already written when `aniv_file_bytes` fails:
the two header fields are two separate `write(pack("=h", ...))` calls, so a
raise in the second one leaves the first one's 2 bytes in the file.  (The
body writes never fail — `pack_vert_enc` below — so the `h1 ++ h2` case is
unreachable and per-vertex partial progress needs no finer modelling.) -/
def aniv_written (baseMesh : Mesh) (cfg : Config) (frames : List Mesh) :
    List ℕ :=
  match pack_h (frames.length : ℤ) with
  | none => []
  | some h1 =>
    match pack_h ((baseMesh.verts.length * calcsize_vert cfg.fmt : ℕ) : ℤ) with
    | none => h1
    | some h2 => h1 ++ h2

/-- `UnrealMeshExport.execute`.  `baseMesh` is `mesh_obj.data` (used by
`check_mesh` and the two header counts), `frames` are the evaluated
per-frame snapshots of the scene's frame range (before axis flips), and
`refSnap` is the evaluated snapshot used for the data file.  A raise while
writing the animation file leaves the already-written part of `_a.3d` on
disk alongside the log file. -/
def execute (baseMesh : Mesh) (frames : List Mesh) (refSnap : Mesh)
    (cfg : Config) : ExecResult :=
  if frames.length = 0 then .cancelled .invalidFrameRange []
  else if check_mesh baseMesh.verts cfg.scale = false then
    .cancelled .outOfBounds []
  else
    match aniv_file_bytes baseMesh cfg frames with
    | none => .raised [.logFile, .anivFile (aniv_written baseMesh cfg frames)]
    | some anivB =>
      match data_header
          (get_bmesh_snapshot refSnap cfg.flip_x cfg.flip_y cfg.flip_z).faces.length
          (get_bmesh_snapshot refSnap cfg.flip_x cfg.flip_y cfg.flip_z).verts.length with
      | none => .raised [.logFile, .anivFile anivB, .dataFile []]
      | some hdr =>
        match face_loop baseMesh.material_slots cfg.flip_uv_u cfg.flip_uv_v
            (get_bmesh_snapshot refSnap cfg.flip_x cfg.flip_y cfg.flip_z).has_uv
            (get_bmesh_snapshot refSnap cfg.flip_x cfg.flip_y cfg.flip_z).faces with
        | .badFace w =>
          .cancelled .onlyTriangles
            [.logFile, .anivFile anivB, .dataFile (hdr ++ w)]
        | .packErr w =>
          .raised [.logFile, .anivFile anivB, .dataFile (hdr ++ w)]
        | .ok w =>
          .finished
            [.logFile, .anivFile anivB, .dataFile (hdr ++ w), .classFile]

/-! ### Concrete inputs used by witnesses and counterexamples -/

/-- The default configuration: scale 1, no axis flips, UV flips at their
defaults (`flip_uv_u = False`, `flip_uv_v = True`), Engine format. -/
def cfgU : Config := ⟨1, false, false, false, false, true, .unreal1⟩

/-- A minimal valid mesh: one in-range vertex, no faces. -/
def mesh1v : Mesh := ⟨[⟨0, 0, 0⟩], [], false, []⟩

/-- A mesh whose single face is a quadrilateral (4 vertex indices). -/
def mesh4quad : Mesh :=
  ⟨List.replicate 4 ⟨0, 0, 0⟩, [⟨[0, 1, 2, 3], 0, List.replicate 4 (0, 0)⟩],
    false, []⟩

/-- A snapshot with a single triangular face and no UV channel. -/
def meshTriNoUV : Mesh :=
  ⟨List.replicate 3 ⟨0, 0, 0⟩, [⟨[0, 1, 2], -1, List.replicate 3 (0, 0)⟩],
    false, []⟩

/-- A face-less snapshot with 10 vertices. -/
def mesh10 : Mesh := ⟨List.replicate 10 ⟨0, 0, 0⟩, [], false, []⟩

/-- A face-less snapshot with 11 vertices. -/
def mesh11 : Mesh := ⟨List.replicate 11 ⟨0, 0, 0⟩, [], false, []⟩

/-! ### Arithmetic and bit-level lemmas -/

/-- A bitwise or of a value below `2^n` with a value shifted left by `n`
is just their sum: the two summands occupy disjoint bit ranges. -/
theorem lor_mul_two_pow (n : ℕ) : ∀ a b : ℕ, a < 2 ^ n →
    a ||| b * 2 ^ n = a + b * 2 ^ n := by
  induction n with
  | zero =>
    intro a b ha
    have : a = 0 := by omega
    simp [this]
  | succ n ih =>
    intro a b ha
    have h2 : b * 2 ^ (n + 1) = 2 * (b * 2 ^ n) := by rw [pow_succ]; ring
    have hbit : b * 2 ^ (n + 1) = Nat.bit false (b * 2 ^ n) := by
      rw [Nat.bit_val, Bool.toNat_false, add_zero, h2]
    have hd2 : Nat.div2 a < 2 ^ n := by
      rw [Nat.div2_val]
      rw [pow_succ] at ha
      omega
    calc a ||| b * 2 ^ (n + 1)
        = Nat.bit a.bodd a.div2 ||| Nat.bit false (b * 2 ^ n) := by
          rw [Nat.bit_decomp, ← hbit]
      _ = Nat.bit (a.bodd || false) (a.div2 ||| b * 2 ^ n) := by rw [Nat.lor_bit]
      _ = Nat.bit a.bodd (a.div2 + b * 2 ^ n) := by rw [Bool.or_false, ih _ b hd2]
      _ = a + b * 2 ^ (n + 1) := by
          have hdecomp := Nat.bodd_add_div2 a
          rw [Nat.bit_val, h2]
          generalize b * 2 ^ n = k
          omega

theorem maskBits_lt (t : ℤ) (w : ℕ) : maskBits t w < 2 ^ w := by
  have h2 : (0 : ℤ) < 2 ^ w := by positivity
  have hlt := Int.emod_lt_of_pos t h2
  have hge := Int.emod_nonneg t (ne_of_gt h2)
  have hc : ((2 ^ w : ℕ) : ℤ) = (2 : ℤ) ^ w := by push_cast; ring
  unfold maskBits
  omega

/-- `Rat.floor` agrees with Mathlib's `⌊·⌋`. -/
theorem rat_floor_eq (q : ℚ) : q.floor = ⌊q⌋ :=
  (Rat.floor_def' q).trans Rat.floor_def.symm

/-- `truncQ` is floor on non-negative arguments and ceiling on negative ones:
truncation toward zero. -/
theorem truncQ_eq (q : ℚ) : truncQ q = if 0 ≤ q then ⌊q⌋ else ⌈q⌉ := by
  unfold truncQ
  rw [rat_floor_eq, rat_floor_eq, Int.floor_neg, neg_neg]

theorem truncQ_eq_floor {q : ℚ} (h : 0 ≤ q) : truncQ q = ⌊q⌋ := by
  rw [truncQ_eq, if_pos h]


theorem le_bytes_length (w n : ℕ) : (le_bytes w n).length = w := by
  simp [le_bytes]

theorem le_bytes_two (n : ℕ) : le_bytes 2 n = [n % 256, n / 256 % 256] := by
  simp [le_bytes, List.range_succ]

theorem pack_H_eq {n : ℕ} (h : n < 2 ^ 16) : pack_H n = some (le_bytes 2 n) := by
  unfold pack_H
  rw [if_pos h]

theorem pack_h_of_natCast {n : ℕ} (h : n < 2 ^ 15) :
    pack_h (n : ℤ) = some (le_bytes 2 n) := by
  have h0 : (0 : ℤ) ≤ (n : ℤ) := Int.natCast_nonneg n
  have hlt : (n : ℤ) < 2 ^ 15 := by exact_mod_cast h
  have hcond : -2 ^ 15 ≤ (n : ℤ) ∧ (n : ℤ) < 2 ^ 15 :=
    ⟨le_trans (by norm_num) h0, hlt⟩
  unfold pack_h
  rw [if_pos hcond]
  congr 1
  have hmod : (n : ℤ) % 2 ^ 16 = (n : ℤ) := by
    apply Int.emod_eq_of_lt h0
    have h2 : (2 : ℤ) ^ 15 < 2 ^ 16 := by norm_num
    exact lt_trans hlt h2
  rw [hmod, Int.toNat_natCast]

/-- The bit fields of the Engine packing are disjoint, so the packed word is
the weighted sum of its masked fields. -/
theorem enc_vert_unreal_eq_add (c : Vec3) :
    enc_vert_unreal c =
      maskBits (truncQ (c.x * 8)) 11 + maskBits (truncQ (c.y * 8)) 11 * 2 ^ 11 +
        maskBits (truncQ (c.z * 4)) 10 * 2 ^ 22 := by
  have hx := maskBits_lt (truncQ (c.x * 8)) 11
  have hy := maskBits_lt (truncQ (c.y * 8)) 11
  have hz := maskBits_lt (truncQ (c.z * 4)) 10
  unfold enc_vert_unreal
  rw [Nat.shiftLeft_eq, Nat.shiftLeft_eq]
  rw [lor_mul_two_pow 11 _ _ hx]
  have hsum : maskBits (truncQ (c.x * 8)) 11 + maskBits (truncQ (c.y * 8)) 11 * 2 ^ 11
      < 2 ^ 22 := by
    have e : (2 : ℕ) ^ 11 * 2 ^ 11 = 2 ^ 22 := by norm_num
    nlinarith
  rw [lor_mul_two_pow 22 _ _ hsum]

theorem enc_vert_unreal_lt (c : Vec3) : enc_vert_unreal c < 2 ^ 32 := by
  have hx := maskBits_lt (truncQ (c.x * 8)) 11
  have hy := maskBits_lt (truncQ (c.y * 8)) 11
  have hz := maskBits_lt (truncQ (c.z * 4)) 10
  rw [enc_vert_unreal_eq_add]
  have e1 : (2 : ℕ) ^ 11 = 2048 := by norm_num
  have e2 : (2 : ℕ) ^ 10 = 1024 := by norm_num
  have e3 : (2 : ℕ) ^ 22 = 4194304 := by norm_num
  have e4 : (2 : ℕ) ^ 32 = 4294967296 := by norm_num
  nlinarith

/-- The bit fields of the Extended packing are disjoint, so the packed word
is the weighted sum of its masked fields. -/
theorem enc_vert_deusex_eq_add (c : Vec3) :
    enc_vert_deusex c =
      maskBits (truncQ (c.x * 256)) 16 +
        maskBits (truncQ (c.y * 256)) 16 * 2 ^ 16 +
        maskBits (truncQ (c.z * 256)) 16 * 2 ^ 32 := by
  have hx := maskBits_lt (truncQ (c.x * 256)) 16
  have hy := maskBits_lt (truncQ (c.y * 256)) 16
  have hz := maskBits_lt (truncQ (c.z * 256)) 16
  unfold enc_vert_deusex
  rw [Nat.shiftLeft_eq, Nat.shiftLeft_eq]
  rw [lor_mul_two_pow 16 _ _ hx]
  have hsum : maskBits (truncQ (c.x * 256)) 16 + maskBits (truncQ (c.y * 256)) 16 * 2 ^ 16
      < 2 ^ 32 := by
    have e : (2 : ℕ) ^ 16 * 2 ^ 16 = 2 ^ 32 := by norm_num
    nlinarith
  rw [lor_mul_two_pow 32 _ _ hsum]

theorem enc_vert_deusex_lt (c : Vec3) : enc_vert_deusex c < 2 ^ 48 := by
  have hx := maskBits_lt (truncQ (c.x * 256)) 16
  have hy := maskBits_lt (truncQ (c.y * 256)) 16
  have hz := maskBits_lt (truncQ (c.z * 256)) 16
  rw [enc_vert_deusex_eq_add]
  have e1 : (2 : ℕ) ^ 16 = 65536 := by norm_num
  have e2 : (2 : ℕ) ^ 32 = 4294967296 := by norm_num
  have e3 : (2 : ℕ) ^ 48 = 281474976710656 := by norm_num
  nlinarith

/-! ### Claim theorems (first batch) -/

/-- C1: For every coordinate triple (x, y, z), packing in Engine format
returns exactly `(trunc(x*8) & 0x7FF) | ((trunc(y*8) & 0x7FF) << 11) |
((trunc(z*4) & 0x3FF) << 22)` — a word whose disjoint bit fields are the
truncated-toward-zero, masked scaled components — and at scale 1 with no
flips the single vertex (10.0, -5.0, 2.0) packs to
`(80 & 0x7ff) | ((-40 & 0x7ff) << 11) | ((8 & 0x3ff) << 22)
 = 80 + 2008 * 2^11 + 8 * 2^22`. -/
theorem claim1_enc_vert_unreal (x y z : ℚ) :
    enc_vert_unreal ⟨x, y, z⟩ =
      maskBits (truncQ (x * 8)) 11 + maskBits (truncQ (y * 8)) 11 * 2 ^ 11 +
        maskBits (truncQ (z * 4)) 10 * 2 ^ 22 ∧
    truncQ (10 * 8) = 80 ∧ truncQ (-5 * 8) = -40 ∧ truncQ (2 * 4) = 8 ∧
    maskBits 80 11 = 80 ∧ maskBits (-40) 11 = 2008 ∧ maskBits 8 10 = 8 ∧
    enc_vert ExportFormat.unreal1 (scaleVec 1 ⟨10, -5, 2⟩) =
      80 + 2008 * 2 ^ 11 + 8 * 2 ^ 22 := by
  exact ⟨enc_vert_unreal_eq_add ⟨x, y, z⟩, by decide, by decide, by decide,
    by decide, by decide, by decide, by decide⟩

/-- C9: For every coordinate triple (x, y, z), packing in Extended format
returns exactly `(trunc(x*256) & 0xFFFF) | ((trunc(y*256) & 0xFFFF) << 16) |
((trunc(z*256) & 0xFFFF) << 32)` with truncation toward zero, and the result
occupies (at most) 48 significant bits of its 64-bit field. -/
theorem claim9_enc_vert_deusex (x y z : ℚ) :
    enc_vert_deusex ⟨x, y, z⟩ =
      maskBits (truncQ (x * 256)) 16 +
        maskBits (truncQ (y * 256)) 16 * 2 ^ 16 +
        maskBits (truncQ (z * 256)) 16 * 2 ^ 32 ∧
    enc_vert_deusex ⟨x, y, z⟩ < 2 ^ 48 := by
  exact ⟨enc_vert_deusex_eq_add ⟨x, y, z⟩, enc_vert_deusex_lt ⟨x, y, z⟩⟩

/-- C10: The vertex packers are total — no failure mode for any input
coordinate triple.  The packed result always fits its declared field
(below 2^32 for Engine, below 2^48 for Extended, so writing it with
`pack('=L', ...)` resp. `pack('=Q', ...)` never raises), and an
out-of-range component silently wraps via the bit mask (e.g. x = 300 gives
field `trunc(300*8) mod 2^11 = 2400 mod 2048 = 352`). -/
theorem claim10_packers_total (c : Vec3) :
    enc_vert_unreal c < 2 ^ 32 ∧ enc_vert_deusex c < 2 ^ 48 ∧
    (pack_eL (enc_vert_unreal c)).isSome = true ∧
    (pack_eQ (enc_vert_deusex c)).isSome = true ∧
    enc_vert_unreal ⟨300, 0, 0⟩ = 352 := by
  have h1 := enc_vert_unreal_lt c
  have h2 := enc_vert_deusex_lt c
  refine ⟨h1, h2, ?_, ?_, by decide⟩
  · unfold pack_eL
    rw [if_pos h1]
    rfl
  · have h3 : enc_vert_deusex c < 2 ^ 64 :=
      lt_trans h2 (by norm_num)
    unfold pack_eQ
    rw [if_pos h3]
    rfl

theorem getD_replicate_zero (n i : ℕ) : (List.replicate n (0 : ℕ)).getD i 0 = 0 := by
  induction n generalizing i with
  | zero => simp
  | succ n ih =>
    cases i with
    | zero => simp [List.replicate_succ]
    | succ i => simp [List.replicate_succ]

theorem getD_four_zero_tail (p0 p1 p2 p3 : ℕ) (i : ℕ) (h : 4 ≤ i) :
    ([p0, p1, p2, p3] ++ List.replicate 44 0).getD i 0 = 0 := by
  obtain ⟨k, rfl⟩ : ∃ k, i = k + 4 := ⟨i - 4, by omega⟩
  simpa using getD_replicate_zero 44 k

theorem mapM_option_eq_some {α β : Type} (f : α → Option β) (g : α → β)
    (h : ∀ a, f a = some (g a)) : ∀ l : List α, l.mapM f = some (l.map g) := by
  intro l
  induction l with
  | nil => rfl
  | cons a t ih => rw [List.mapM_cons, h a, ih]; rfl

theorem flatten_map_const_length {α : Type} (f : α → List ℕ) (w : ℕ) :
    ∀ l : List α, (∀ x ∈ l, (f x).length = w) →
      ((l.map f).flatten).length = l.length * w := by
  intro l
  induction l with
  | nil => simp
  | cons a t ih =>
    intro h
    have ha := h a (by simp)
    have ht := ih fun x hx => h x (by simp [hx])
    simp only [List.map_cons, List.flatten_cons, List.length_append, ha, ht,
      List.length_cons]
    ring

theorem snapshot_verts_length (m : Mesh) (fx fy fz : Bool) :
    (get_bmesh_snapshot m fx fy fz).verts.length = m.verts.length := by
  unfold get_bmesh_snapshot flip_axis
  split_ifs <;> simp

theorem pack_vert_enc (fmt : ExportFormat) (c : Vec3) :
    pack_vert fmt (enc_vert fmt c) =
      some (le_bytes (std_vert_width fmt) (enc_vert fmt c)) := by
  cases fmt
  · have h := enc_vert_unreal_lt c
    simp only [pack_vert, enc_vert, std_vert_width, pack_eL]
    rw [if_pos h]
  · have h : enc_vert_deusex c < 2 ^ 64 :=
      lt_trans (enc_vert_deusex_lt c) (by norm_num)
    simp only [pack_vert, enc_vert, std_vert_width, pack_eQ]
    rw [if_pos h]

theorem frame_bytes_eq (cfg : Config) (m : Mesh) :
    frame_bytes cfg m =
      some (((get_bmesh_snapshot m cfg.flip_x cfg.flip_y cfg.flip_z).verts.map
        fun v => le_bytes (std_vert_width cfg.fmt)
          (enc_vert cfg.fmt (scaleVec cfg.scale v))).flatten) := by
  unfold frame_bytes
  rw [mapM_option_eq_some _ _ (fun v => pack_vert_enc cfg.fmt (scaleVec cfg.scale v))]
  rfl

/-! ### Claim theorems: the two file headers -/

/-- C2 counterexample: the data file header is 48 bytes long, not 46.  The
claim's own field list — 4 little-endian 16-bit fields, 7 little-endian
32-bit fields and 12 single bytes — sums to 4·2 + 7·4 + 12 = 48, which is
what `pack("4H7L12B", ...)` produces; at face count 1 and vertex count 4 the
emitted header has length 48 ≠ 46. -/
theorem claim2_counterexample :
    data_header 1 4 = some ([1, 0, 4, 0] ++ List.replicate 44 0) ∧
    ([1, 0, 4, 0] ++ List.replicate 44 (0 : ℕ)).length = 48 ∧
    ([1, 0, 4, 0] ++ List.replicate 44 (0 : ℕ)).length ≠ 46 := by decide

/-- C2 amended: for every exported snapshot, the data file header is exactly
48 bytes long and consists of 4 little-endian 16-bit fields (the snapshot's
face count, the snapshot's vertex count, then two zero fields), followed by
7 little-endian 32-bit zero fields, followed by 12 zero bytes; the
face/vertex count fields always equal the input snapshot's respective
counts exactly (whenever they fit the 16-bit fields at all — otherwise
`struct.pack` raises), and every successful export's data file starts with
exactly this header computed from the snapshot's counts. -/
theorem claim2_amended (fc vc : ℕ) (hf : fc < 2 ^ 16) (hv : vc < 2 ^ 16) :
    data_header fc vc =
      some (le_bytes 2 fc ++ le_bytes 2 vc ++ le_bytes 2 0 ++ le_bytes 2 0 ++
            (List.replicate 7 (le_bytes 4 0)).flatten ++ List.replicate 12 0) ∧
    (∀ l, data_header fc vc = some l →
      l.length = 48 ∧
      l.getD 0 0 + 256 * l.getD 1 0 = fc ∧
      l.getD 2 0 + 256 * l.getD 3 0 = vc ∧
      ∀ i, 4 ≤ i → l.getD i 0 = 0) ∧
    (∀ base frames ref cfg,
      (execute base frames ref cfg).isFinished = true →
      ∃ A w hdr,
        data_header
          (get_bmesh_snapshot ref cfg.flip_x cfg.flip_y cfg.flip_z).faces.length
          (get_bmesh_snapshot ref cfg.flip_x cfg.flip_y cfg.flip_z).verts.length
          = some hdr ∧
        (execute base frames ref cfg).files =
          [.logFile, .anivFile A, .dataFile (hdr ++ w), .classFile]) := by
  have h1 : data_header fc vc =
      some (le_bytes 2 fc ++ le_bytes 2 vc ++ le_bytes 2 0 ++ le_bytes 2 0 ++
            (List.replicate 7 (le_bytes 4 0)).flatten ++ List.replicate 12 0) := by
    unfold data_header
    rw [pack_H_eq hf, pack_H_eq hv]
    rfl
  have hshape : le_bytes 2 fc ++ le_bytes 2 vc ++ le_bytes 2 0 ++ le_bytes 2 0 ++
      (List.replicate 7 (le_bytes 4 0)).flatten ++ List.replicate 12 0 =
      [fc % 256, fc / 256 % 256, vc % 256, vc / 256 % 256] ++ List.replicate 44 0 := by
    have hz : le_bytes 2 0 = [0, 0] := by decide
    have hflat : (List.replicate 7 (le_bytes 4 0)).flatten = List.replicate 28 (0 : ℕ) := by
      decide
    have htail : ([0, 0] ++ ([0, 0] ++ (List.replicate 28 (0 : ℕ) ++ List.replicate 12 0)))
        = List.replicate 44 0 := by decide
    rw [le_bytes_two fc, le_bytes_two vc, hz, hflat]
    simp only [List.append_assoc, htail]
    simp
  refine ⟨h1, ?_, ?_⟩
  · intro l hl
    rw [h1] at hl
    injection hl with hl
    subst hl
    rw [hshape]
    have hf' : fc < 65536 := by
      have e : (2 : ℕ) ^ 16 = 65536 := by norm_num
      rw [e] at hf
      exact hf
    have hv' : vc < 65536 := by
      have e : (2 : ℕ) ^ 16 = 65536 := by norm_num
      rw [e] at hv
      exact hv
    refine ⟨by simp, by simp; omega, by simp; omega, ?_⟩
    intro i hi
    exact getD_four_zero_tail _ _ _ _ i hi
  · intro base frames ref cfg h
    unfold execute at h ⊢
    by_cases hfr : frames.length = 0
    · rw [if_pos hfr] at h
      simp [ExecResult.isFinished] at h
    · rw [if_neg hfr] at h ⊢
      by_cases hchk : check_mesh base.verts cfg.scale = false
      · rw [if_pos hchk] at h
        simp [ExecResult.isFinished] at h
      · rw [if_neg hchk] at h ⊢
        revert h
        generalize aniv_file_bytes base cfg frames = oA
        generalize data_header
            (get_bmesh_snapshot ref cfg.flip_x cfg.flip_y cfg.flip_z).faces.length
            (get_bmesh_snapshot ref cfg.flip_x cfg.flip_y cfg.flip_z).verts.length = oH
        generalize face_loop base.material_slots cfg.flip_uv_u cfg.flip_uv_v
            (get_bmesh_snapshot ref cfg.flip_x cfg.flip_y cfg.flip_z).has_uv
            (get_bmesh_snapshot ref cfg.flip_x cfg.flip_y cfg.flip_z).faces = oFL
        intro h
        cases oA with
        | none => simp [ExecResult.isFinished] at h
        | some A =>
          cases oH with
          | none => simp [ExecResult.isFinished] at h
          | some hdr =>
            cases oFL with
            | ok w => exact ⟨A, w, hdr, rfl, rfl⟩
            | badFace w => simp [ExecResult.isFinished] at h
            | packErr w => simp [ExecResult.isFinished] at h

/-- Witness for C2 amended at face count 1 and vertex count 4. -/
theorem claim2_witness :
    data_header 1 4 =
      some (le_bytes 2 1 ++ le_bytes 2 4 ++ le_bytes 2 0 ++ le_bytes 2 0 ++
            (List.replicate 7 (le_bytes 4 0)).flatten ++ List.replicate 12 0) :=
  (claim2_amended 1 4 (by decide) (by decide)).1

/-- C3: the animation file header is a little-endian 16-bit frame count
followed by a little-endian 16-bit frame-size field that equals the
per-frame vertex count times the packed field width — 4 bytes for the
Engine format and 8 bytes for the Extended format — independent of frame
content (it is computed from the base mesh's vertex count alone), and this
frame size equals the number of body bytes actually written per frame. -/
theorem claim3_aniv_header (base : Mesh) (cfg : Config) (frames : List Mesh)
    (hc : frames.length < 2 ^ 15)
    (hs : base.verts.length * calcsize_vert cfg.fmt < 2 ^ 15)
    (hv : ∀ m ∈ frames, m.verts.length = base.verts.length) :
    ∃ perFrame : List (List ℕ),
      aniv_file_bytes base cfg frames =
        some (le_bytes 2 frames.length ++
              le_bytes 2 (base.verts.length * calcsize_vert cfg.fmt) ++
              perFrame.flatten) ∧
      perFrame.length = frames.length ∧
      (∀ b ∈ perFrame, b.length = base.verts.length * calcsize_vert cfg.fmt) ∧
      calcsize_vert cfg.fmt = std_vert_width cfg.fmt ∧
      calcsize_vert ExportFormat.unreal1 = 4 ∧
      calcsize_vert ExportFormat.deusex = 8 := by
  have hcs : calcsize_vert cfg.fmt = std_vert_width cfg.fmt := by
    cases cfg.fmt <;> rfl
  have h1 := pack_h_of_natCast hc
  have h2 := pack_h_of_natCast hs
  have h3 := mapM_option_eq_some (frame_bytes cfg)
    (fun m => ((get_bmesh_snapshot m cfg.flip_x cfg.flip_y cfg.flip_z).verts.map
        fun v => le_bytes (std_vert_width cfg.fmt)
          (enc_vert cfg.fmt (scaleVec cfg.scale v))).flatten)
    (frame_bytes_eq cfg) frames
  refine ⟨frames.map (fun m =>
      ((get_bmesh_snapshot m cfg.flip_x cfg.flip_y cfg.flip_z).verts.map
        fun v => le_bytes (std_vert_width cfg.fmt)
          (enc_vert cfg.fmt (scaleVec cfg.scale v))).flatten),
    ?_, by simp, ?_, hcs, rfl, rfl⟩
  · unfold aniv_file_bytes
    rw [h1, h2, h3]
    rfl
  · intro b hb
    obtain ⟨m, hm, rfl⟩ := List.mem_map.1 hb
    rw [flatten_map_const_length _ _ _ (fun x _ => le_bytes_length _ _)]
    rw [snapshot_verts_length, hv m hm, hcs]

/-- Witness for C3 at a one-vertex, one-frame Engine-format export. -/
theorem claim3_witness :
    ∃ perFrame : List (List ℕ),
      aniv_file_bytes mesh1v cfgU [mesh1v] =
        some (le_bytes 2 ([mesh1v] : List Mesh).length ++
              le_bytes 2 (mesh1v.verts.length * calcsize_vert cfgU.fmt) ++
              perFrame.flatten) ∧
      perFrame.length = ([mesh1v] : List Mesh).length ∧
      (∀ b ∈ perFrame, b.length = mesh1v.verts.length * calcsize_vert cfgU.fmt) ∧
      calcsize_vert cfgU.fmt = std_vert_width cfgU.fmt ∧
      calcsize_vert ExportFormat.unreal1 = 4 ∧
      calcsize_vert ExportFormat.deusex = 8 :=
  claim3_aniv_header mesh1v cfgU [mesh1v] (by decide) (by decide) (by decide)

theorem badFace_exists (slots : List (List Char)) (fu fv has_uv : Bool) :
    ∀ (faces : List Face) (w : List ℕ),
      face_loop slots fu fv has_uv faces = .badFace w →
      ∃ f ∈ faces, f.verts.length ≠ 3 := by
  intro faces
  induction faces with
  | nil =>
    intro w h
    simp [face_loop] at h
  | cons f t ih =>
    intro w h
    unfold face_loop at h
    by_cases h3 : f.verts.length ≠ 3
    · exact ⟨f, by simp, h3⟩
    · rw [if_neg h3] at h
      cases hr : face_record slots fu fv has_uv f with
      | none => simp [hr] at h
      | some r =>
        simp only [hr] at h
        cases hl : face_loop slots fu fv has_uv t with
        | ok b => simp [hl] at h
        | badFace w2 =>
          obtain ⟨g, hg, hg3⟩ := ih w2 hl
          exact ⟨g, List.mem_cons_of_mem f hg, hg3⟩
        | packErr w2 => simp [hl] at h

/-! ### Claim theorems: abort behaviour -/

/-- C4 counterexample: a snapshot whose single face has 4 vertices aborts the
export with the only-triangles error, but output files *have* been created by
then: the animation file has been fully written and the data file already
contains its header.  This refutes "no output files are created". -/
theorem claim4_counterexample :
    execute mesh4quad [mesh4quad] mesh4quad cfgU =
      .cancelled .onlyTriangles
        [.logFile, .anivFile ([1, 0, 16, 0] ++ List.replicate 16 0),
         .dataFile ([1, 0, 4, 0] ++ List.replicate 44 0)] ∧
    (execute mesh4quad [mesh4quad] mesh4quad cfgU).files ≠ [] := by decide

/-- C4 amended: if any face of the snapshot does not have exactly 3
vertices, the export aborts with the only-triangles (InvalidTopology) error
— but not before byte buffers have been committed: at the abort the
animation file has already been fully written and the data file already
contains its header plus the records of the faces preceding the offending
one. -/
theorem claim4_amended (base : Mesh) (frames : List Mesh) (ref : Mesh)
    (cfg : Config) (A hdr w : List ℕ)
    (hfr : frames.length ≠ 0)
    (hchk : check_mesh base.verts cfg.scale = true)
    (hA : aniv_file_bytes base cfg frames = some A)
    (hH : data_header
      (get_bmesh_snapshot ref cfg.flip_x cfg.flip_y cfg.flip_z).faces.length
      (get_bmesh_snapshot ref cfg.flip_x cfg.flip_y cfg.flip_z).verts.length
      = some hdr)
    (hFL : face_loop base.material_slots cfg.flip_uv_u cfg.flip_uv_v
      (get_bmesh_snapshot ref cfg.flip_x cfg.flip_y cfg.flip_z).has_uv
      (get_bmesh_snapshot ref cfg.flip_x cfg.flip_y cfg.flip_z).faces
      = .badFace w) :
    execute base frames ref cfg =
      .cancelled .onlyTriangles
        [.logFile, .anivFile A, .dataFile (hdr ++ w)] ∧
    ∃ f ∈ (get_bmesh_snapshot ref cfg.flip_x cfg.flip_y cfg.flip_z).faces,
      f.verts.length ≠ 3 := by
  have hchk' : ¬(check_mesh base.verts cfg.scale = false) := by simp [hchk]
  constructor
  · simp only [execute, if_neg hfr, if_neg hchk', hA, hH, hFL]
  · exact badFace_exists _ _ _ _ _ _ hFL

/-- Witness for C4 amended at the concrete quadrilateral snapshot. -/
theorem claim4_witness :
    execute mesh4quad [mesh4quad] mesh4quad cfgU =
      .cancelled .onlyTriangles
        [.logFile, .anivFile ([1, 0, 16, 0] ++ List.replicate 16 0),
         .dataFile (([1, 0, 4, 0] ++ List.replicate 44 0) ++ [])] ∧
    ∃ f ∈ (get_bmesh_snapshot mesh4quad cfgU.flip_x cfgU.flip_y
        cfgU.flip_z).faces, f.verts.length ≠ 3 :=
  claim4_amended mesh4quad [mesh4quad] mesh4quad cfgU
    ([1, 0, 16, 0] ++ List.replicate 16 0)
    ([1, 0, 4, 0] ++ List.replicate 44 0) []
    (by decide) (by decide) (by decide) (by decide) (by decide)

/-- C5 counterexample: two frames with vertex counts 10 and 11 do *not*
abort the export — there is no frame-topology check anywhere — and the
export finishes with all of frame 2's bytes written: the animation file
holds 4 header bytes plus 10·4 + 11·4 body bytes. -/
theorem claim5_counterexample :
    execute mesh10 [mesh10, mesh11] mesh10 cfgU =
      .finished
        [.logFile, .anivFile ([2, 0, 40, 0] ++ List.replicate 84 0),
         .dataFile ([0, 0, 10, 0] ++ List.replicate 44 0), .classFile] ∧
    (execute mesh10 [mesh10, mesh11] mesh10 cfgU).isFinished = true ∧
    ([2, 0, 40, 0] ++ List.replicate 84 (0 : ℕ)).length = 4 + 10 * 4 + 11 * 4 := by
  decide

/-- C5 amended: the animation encoder performs no vertex-count consistency
check across frames: encoding never fails, every frame's vertices are all
packed and written, and each frame contributes exactly its own vertex count
times the packed field width in bytes (so mismatched frames silently
produce frames of differing byte lengths instead of a
FrameTopologyMismatch error). -/
theorem claim5_amended (cfg : Config) (frames : List Mesh) :
    ∃ perFrame : List (List ℕ),
      frames.mapM (frame_bytes cfg) = some perFrame ∧
      List.Forall₂
        (fun m b => b.length = m.verts.length * std_vert_width cfg.fmt)
        frames perFrame := by
  refine ⟨_, mapM_option_eq_some _ _ (frame_bytes_eq cfg) frames, ?_⟩
  induction frames with
  | nil => simp
  | cons m t ih =>
    refine List.Forall₂.cons ?_ ih
    rw [flatten_map_const_length _ _ _ (fun x _ => le_bytes_length _ _)]
    rw [snapshot_verts_length]

/-! ### Range validator lemmas -/

theorem abs_lt_iff_cond (maxv c : ℚ) : ¬(-maxv ≥ c ∨ maxv ≤ c) ↔ |c| < maxv := by
  rw [abs_lt]
  push_neg
  exact Iff.rfl

theorem vert_fail_axis_none_iff (maxv : ℚ) (v : Vec3) :
    vert_fail_axis maxv v = none ↔
      |v.x| < maxv ∧ |v.y| < maxv ∧ |v.z| < maxv := by
  unfold vert_fail_axis
  constructor
  · intro h
    split_ifs at h with h1 h2 h3
    exact ⟨(abs_lt_iff_cond _ _).mp h1, (abs_lt_iff_cond _ _).mp h2,
      (abs_lt_iff_cond _ _).mp h3⟩
  · rintro ⟨hx, hy, hz⟩
    rw [if_neg ((abs_lt_iff_cond _ _).mpr hx), if_neg ((abs_lt_iff_cond _ _).mpr hy),
      if_neg ((abs_lt_iff_cond _ _).mpr hz)]

theorem vert_fail_axis_some (maxv : ℚ) (v : Vec3) (a : ℕ) (c : ℚ)
    (h : vert_fail_axis maxv v = some (a, c)) :
    a < 3 ∧ c = vcomp a v ∧ ¬(|c| < maxv) ∧ ∀ b, b < a → |vcomp b v| < maxv := by
  unfold vert_fail_axis at h
  split_ifs at h with h1 h2 h3
  · obtain ⟨rfl, rfl⟩ : 0 = a ∧ v.x = c := by
      injection h with h'
      exact ⟨congrArg Prod.fst h', congrArg Prod.snd h'⟩
    refine ⟨by omega, by simp [vcomp], ?_, by omega⟩
    intro habs
    exact (abs_lt_iff_cond maxv v.x).mpr habs h1
  · obtain ⟨rfl, rfl⟩ : 1 = a ∧ v.y = c := by
      injection h with h'
      exact ⟨congrArg Prod.fst h', congrArg Prod.snd h'⟩
    refine ⟨by omega, by simp [vcomp], ?_, ?_⟩
    · intro habs
      exact (abs_lt_iff_cond maxv v.y).mpr habs h2
    · intro b hb
      have hb0 : b = 0 := by omega
      subst hb0
      simpa [vcomp] using (abs_lt_iff_cond maxv v.x).mp h1
  · obtain ⟨rfl, rfl⟩ : 2 = a ∧ v.z = c := by
      injection h with h'
      exact ⟨congrArg Prod.fst h', congrArg Prod.snd h'⟩
    refine ⟨by omega, by simp [vcomp], ?_, ?_⟩
    · intro habs
      exact (abs_lt_iff_cond maxv v.z).mpr habs h3
    · intro b hb
      interval_cases b
      · simpa [vcomp] using (abs_lt_iff_cond maxv v.x).mp h1
      · simpa [vcomp] using (abs_lt_iff_cond maxv v.y).mp h2

theorem check_go_none_iff (maxv : ℚ) :
    ∀ (l : List Vec3) (k : ℕ),
      check_mesh_go maxv k l = none ↔ ∀ v ∈ l, vert_fail_axis maxv v = none := by
  intro l
  induction l with
  | nil => intro k; simp [check_mesh_go]
  | cons v t ih =>
    intro k
    unfold check_mesh_go
    rcases hv : vert_fail_axis maxv v with _ | ⟨a, c⟩
    · simp only [hv]
      rw [ih (k + 1)]
      constructor
      · intro h u hu
        rcases List.mem_cons.mp hu with rfl | hu
        · exact hv
        · exact h u hu
      · intro h u hu
        exact h u (List.mem_cons_of_mem v hu)
    · simp only [hv]
      constructor
      · intro h
        exact absurd h (by simp)
      · intro h
        have := h v (by simp)
        rw [hv] at this
        exact absurd this (by simp)

theorem check_go_some (maxv : ℚ) :
    ∀ (l : List Vec3) (k i a : ℕ) (c : ℚ),
      check_mesh_go maxv k l = some (i, a, c) →
      k ≤ i ∧ i - k < l.length ∧
      vert_fail_axis maxv (l.getD (i - k) ⟨0, 0, 0⟩) = some (a, c) ∧
      ∀ j, j < i - k → vert_fail_axis maxv (l.getD j ⟨0, 0, 0⟩) = none := by
  intro l
  induction l with
  | nil =>
    intro k i a c h
    simp [check_mesh_go] at h
  | cons v t ih =>
    intro k i a c h
    unfold check_mesh_go at h
    rcases hv : vert_fail_axis maxv v with _ | ⟨a', c'⟩
    · rw [hv] at h
      obtain ⟨hk, hlen, hget, hprev⟩ := ih (k + 1) i a c h
      refine ⟨by omega, by simp; omega, ?_, ?_⟩
      · have hik : i - k = (i - (k + 1)) + 1 := by omega
        rw [hik]
        simpa using hget
      · intro j hj
        cases j with
        | zero => simpa using hv
        | succ j' =>
          have hj' : j' < i - (k + 1) := by omega
          simpa using hprev j' hj'
    · rw [hv] at h
      have h' : k = i ∧ a' = a ∧ c' = c := by
        injection h with h'
        refine ⟨congrArg Prod.fst h', ?_, ?_⟩
        · exact congrArg Prod.fst (congrArg Prod.snd h')
        · exact congrArg Prod.snd (congrArg Prod.snd h')
      obtain ⟨rfl, rfl, rfl⟩ := h'
      refine ⟨le_refl _, by simp, by simpa using hv, ?_⟩
      intro j hj
      omega

/-- C6: the range validator succeeds iff every vertex has all three
components with absolute value strictly below 128/scale; on failure it
reports the first out-of-range vertex in index order, with axes checked in
the order x, y, z, giving the vertex index, the axis and the offending
component value; and when it fails the export is cancelled with no output
files written at all. -/
theorem claim6_check_mesh (verts : List Vec3) (scale : ℚ) :
    (check_mesh verts scale = true ↔
      ∀ v ∈ verts,
        |v.x| < 128 / scale ∧ |v.y| < 128 / scale ∧ |v.z| < 128 / scale) ∧
    (∀ i a c, check_mesh_report verts scale = some (i, a, c) →
      i < verts.length ∧ a < 3 ∧ c = vcomp a (verts.getD i ⟨0, 0, 0⟩) ∧
      ¬(|c| < 128 / scale) ∧
      (∀ j, j < i → ∀ b, b < 3 →
        |vcomp b (verts.getD j ⟨0, 0, 0⟩)| < 128 / scale) ∧
      (∀ b, b < a → |vcomp b (verts.getD i ⟨0, 0, 0⟩)| < 128 / scale)) ∧
    (∀ base frames ref cfg, base.verts = verts → cfg.scale = scale →
      check_mesh verts scale = false →
      (execute base frames ref cfg).files = []) := by
  refine ⟨?_, ?_, ?_⟩
  · unfold check_mesh check_mesh_report
    rw [Option.isNone_iff_eq_none, check_go_none_iff]
    constructor
    · intro h v hv
      exact (vert_fail_axis_none_iff _ _).mp (h v hv)
    · intro h v hv
      exact (vert_fail_axis_none_iff _ _).mpr (h v hv)
  · intro i a c h
    unfold check_mesh_report at h
    obtain ⟨_, hlen, hget, hprev⟩ := check_go_some (128 / scale) verts 0 i a c h
    rw [Nat.sub_zero] at hlen hget hprev
    obtain ⟨ha3, hc, habs, haxes⟩ := vert_fail_axis_some _ _ _ _ hget
    refine ⟨hlen, ha3, hc, habs, ?_, haxes⟩
    intro j hj b hb
    have hnone := hprev j hj
    have hall := (vert_fail_axis_none_iff _ _).mp hnone
    have hb012 : b = 0 ∨ b = 1 ∨ b = 2 := by omega
    rcases hb012 with rfl | rfl | rfl
    · simpa [vcomp] using hall.1
    · simpa [vcomp] using hall.2.1
    · simpa [vcomp] using hall.2.2
  · intro base frames ref cfg hb hs hfalse
    unfold execute
    by_cases hfr : frames.length = 0
    · rw [if_pos hfr]
      rfl
    · rw [if_neg hfr]
      have hcm : check_mesh base.verts cfg.scale = false := by
        rw [hb, hs]
        exact hfalse
      rw [if_pos hcm]
      rfl

/-- Witness for C6: on the two-vertex list whose second vertex has an
out-of-range y component the validator reports index 1, axis 1 (y),
value 200. -/
theorem claim6_witness :
    1 < ([⟨0, 0, 0⟩, ⟨0, 200, 0⟩] : List Vec3).length ∧ 1 < 3 ∧
    (200 : ℚ) = vcomp 1 (([⟨0, 0, 0⟩, ⟨0, 200, 0⟩] : List Vec3).getD 1 ⟨0, 0, 0⟩) ∧
    ¬(|(200 : ℚ)| < 128 / 1) ∧
    (∀ j, j < 1 → ∀ b, b < 3 →
      |vcomp b (([⟨0, 0, 0⟩, ⟨0, 200, 0⟩] : List Vec3).getD j ⟨0, 0, 0⟩)| < 128 / 1) ∧
    (∀ b, b < 1 →
      |vcomp b (([⟨0, 0, 0⟩, ⟨0, 200, 0⟩] : List Vec3).getD 1 ⟨0, 0, 0⟩)| < 128 / 1) :=
  (claim6_check_mesh [⟨0, 0, 0⟩, ⟨0, 200, 0⟩] 1).2.1 1 1 200 (by decide)

/-! ### UV byte lemmas -/

theorem truncQ_toNat_le_255 (w : ℚ) (h0 : 0 ≤ w) (h1 : w ≤ 1) :
    (truncQ (w * 255)).toNat ≤ 255 := by
  have hle : w * 255 ≤ 255 := by nlinarith
  have h255 : ⌊(255 : ℚ)⌋ = 255 := by norm_num
  have := Int.floor_le_floor (α := ℚ) hle
  rw [h255] at this
  rw [truncQ_eq_floor (by positivity)]
  exact Int.toNat_le.mpr this

/-- C7: with a UV channel present, each UV component is wrapped
negative-safely into `[0,1)` by `% 1`, optionally flipped as `1 - w`, and
encoded as the byte `floor(w * 255)`, which is always at most 255; the pair
(1.25, -0.25) with no flips wraps to (0.25, 0.75) and yields bytes
(63, 191).  The claimed default when *no* UV channel exists is however
broken in the code: the default `uv = (0, 0)` is an immutable tuple, so
`uv[0] = uv[0] % 1` raises `TypeError` instead of encoding the byte for 0 —
the loop's UV bytes are never produced (`uv_bytes ... false ... = none`)
and an export of a UV-less one-triangle snapshot raises mid-data-file
rather than finishing. -/
theorem claim7_uv_bytes (fu fv : Bool) (u v : ℚ) :
    (0 ≤ u - (⌊u⌋ : ℚ) ∧ u - (⌊u⌋ : ℚ) < 1) ∧
    uv_bytes fu fv true (u, v) =
      some
        [(⌊(if fu then 1 - (u - (⌊u⌋ : ℚ)) else u - (⌊u⌋ : ℚ)) * 255⌋).toNat,
         (⌊(if fv then 1 - (v - (⌊v⌋ : ℚ)) else v - (⌊v⌋ : ℚ)) * 255⌋).toNat] ∧
    (⌊(if fu then 1 - (u - (⌊u⌋ : ℚ)) else u - (⌊u⌋ : ℚ)) * 255⌋).toNat ≤ 255 ∧
    (⌊(if fv then 1 - (v - (⌊v⌋ : ℚ)) else v - (⌊v⌋ : ℚ)) * 255⌋).toNat ≤ 255 ∧
    uv_bytes false false true (5 / 4, -1 / 4) = some [63, 191] ∧
    uv_bytes fu fv false (u, v) = none ∧
    execute meshTriNoUV [meshTriNoUV] meshTriNoUV cfgU =
      .raised
        [.logFile, .anivFile ([1, 0, 12, 0] ++ List.replicate 12 0),
         .dataFile ([1, 0, 3, 0] ++ List.replicate 44 0)] := by
  have hu0 : 0 ≤ u - (⌊u⌋ : ℚ) := by
    have := Int.floor_le u
    linarith
  have hu1 : u - (⌊u⌋ : ℚ) < 1 := by
    have := Int.lt_floor_add_one u
    linarith
  have hv0 : 0 ≤ v - (⌊v⌋ : ℚ) := by
    have := Int.floor_le v
    linarith
  have hv1 : v - (⌊v⌋ : ℚ) < 1 := by
    have := Int.lt_floor_add_one v
    linarith
  have hcu0 : 0 ≤ (if fu then 1 - (u - (⌊u⌋ : ℚ)) else u - (⌊u⌋ : ℚ)) := by
    cases fu
    · show 0 ≤ u - (⌊u⌋ : ℚ)
      exact hu0
    · show 0 ≤ 1 - (u - (⌊u⌋ : ℚ))
      linarith
  have hcu1 : (if fu then 1 - (u - (⌊u⌋ : ℚ)) else u - (⌊u⌋ : ℚ)) ≤ 1 := by
    cases fu
    · show u - (⌊u⌋ : ℚ) ≤ 1
      linarith
    · show 1 - (u - (⌊u⌋ : ℚ)) ≤ 1
      linarith
  have hcv0 : 0 ≤ (if fv then 1 - (v - (⌊v⌋ : ℚ)) else v - (⌊v⌋ : ℚ)) := by
    cases fv
    · show 0 ≤ v - (⌊v⌋ : ℚ)
      exact hv0
    · show 0 ≤ 1 - (v - (⌊v⌋ : ℚ))
      linarith
  have hcv1 : (if fv then 1 - (v - (⌊v⌋ : ℚ)) else v - (⌊v⌋ : ℚ)) ≤ 1 := by
    cases fv
    · show v - (⌊v⌋ : ℚ) ≤ 1
      linarith
    · show 1 - (v - (⌊v⌋ : ℚ)) ≤ 1
      linarith
  have hbytes : uv_bytes fu fv true (u, v) =
      some
        [(truncQ ((if fu then 1 - (u - (⌊u⌋ : ℚ)) else u - (⌊u⌋ : ℚ)) * 255)).toNat,
         (truncQ ((if fv then 1 - (v - (⌊v⌋ : ℚ)) else v - (⌊v⌋ : ℚ)) * 255)).toNat] := by
    unfold uv_bytes
    simp only [rat_floor_eq, if_true]
  refine ⟨⟨hu0, hu1⟩, ?_, ?_, ?_, by decide, rfl, by decide⟩
  · rw [hbytes, truncQ_eq_floor (mul_nonneg hcu0 (by norm_num)),
      truncQ_eq_floor (mul_nonneg hcv0 (by norm_num))]
  · rw [← truncQ_eq_floor (mul_nonneg hcu0 (by norm_num))]
    exact truncQ_toNat_le_255 _ hcu0 hcu1
  · rw [← truncQ_eq_floor (mul_nonneg hcv0 (by norm_num))]
    exact truncQ_toNat_le_255 _ hcv0 hcv1

/-! ### Mesh-type lookup lemmas -/

theorem jmesh_lookup_eq_table (nm : List Char) :
    jmesh_lookup nm =
      (match jmesh_table.find? (fun p => strContains nm p.1) with
       | some p => p.2
       | none => 0) := by
  unfold jmesh_lookup jmesh_table
  cases h1 : strContains nm ("(skin)".toList) with
  | true =>
    rw [List.find?_cons_of_pos _ (by simpa using h1)]
    simp
  | false =>
  rw [if_neg (by simp), List.find?_cons_of_neg _ (by simpa using h1)]
  cases h2 : strContains nm ("(twosidednorm)".toList) with
  | true =>
    rw [List.find?_cons_of_pos _ (by simpa using h2)]
    simp
  | false =>
  rw [if_neg (by simp), List.find?_cons_of_neg _ (by simpa using h2)]
  cases h3 : strContains nm ("(translucent)".toList) with
  | true =>
    rw [List.find?_cons_of_pos _ (by simpa using h3)]
    simp
  | false =>
  rw [if_neg (by simp), List.find?_cons_of_neg _ (by simpa using h3)]
  cases h4 : strContains nm ("(twosided)".toList) with
  | true =>
    rw [List.find?_cons_of_pos _ (by simpa using h4)]
    simp
  | false =>
  rw [if_neg (by simp), List.find?_cons_of_neg _ (by simpa using h4)]
  cases h5 : strContains nm ("(weapon)".toList) with
  | true =>
    rw [List.find?_cons_of_pos _ (by simpa using h5)]
    simp
  | false =>
  rw [if_neg (by simp), List.find?_cons_of_neg _ (by simpa using h5)]
  cases h6 : strContains nm ("(unlit)".toList) with
  | true =>
    rw [List.find?_cons_of_pos _ (by simpa using h6)]
    simp
  | false =>
  rw [if_neg (by simp), List.find?_cons_of_neg _ (by simpa using h6)]
  cases h7 : strContains nm ("(flat)".toList) with
  | true =>
    rw [List.find?_cons_of_pos _ (by simpa using h7)]
    simp
  | false =>
  rw [if_neg (by simp), List.find?_cons_of_neg _ (by simpa using h7)]
  cases h8 : strContains nm ("(envmapped)".toList) with
  | true =>
    rw [List.find?_cons_of_pos _ (by simpa using h8)]
    simp
  | false =>
  rw [if_neg (by simp), List.find?_cons_of_neg _ (by simpa using h8), List.find?_nil]

/-- C8: the mesh-type byte equals the value of the first marker — in the
fixed order (skin)→0, (twosidednorm)→1, (translucent)→2, (twosided)→3,
(weapon)→8, (unlit)→16, (flat)→32, (envmapped)→64 — that occurs as a
case-insensitive substring of the slot's material name, and 0 when no
marker matches or the slot index is negative or out of range; the name
"MySkin(Skin)Variant" yields mesh type 0. -/
theorem claim8_jmesh_type (slots : List (List Char)) (idx : ℤ) :
    get_jmesh_type slots idx =
      (if 0 ≤ idx ∧ idx < (slots.length : ℤ) then
        match jmesh_table.find? (fun p =>
            strContains ((slots.getD idx.toNat []).map Char.toLower) p.1) with
        | some p => p.2
        | none => 0
      else 0) ∧
    get_jmesh_type ["MySkin(Skin)Variant".toList] 0 = 0 ∧
    get_jmesh_type ["MyUnlit(unlit)Thing".toList] 0 = 16 ∧
    get_jmesh_type [] 5 = 0 ∧
    get_jmesh_type [List.replicate 3 'a'] (-1) = 0 := by
  refine ⟨?_, by decide, by decide, by decide, by decide⟩
  unfold get_jmesh_type
  by_cases hg : 0 > idx ∨ (slots.length : ℤ) ≤ idx
  · rw [if_pos hg, if_neg (by omega)]
  · rw [if_neg hg, if_pos (by omega)]
    exact jmesh_lookup_eq_table _

end Unreal1
